import Mathlib

/-!
# Verification of the BIP39 wordlist filter (`bip39_filter.py`)

A shallow embedding of the query-parsing and predicate-matching core of the
filter tool: length-query parsing, fixed-position parsing and matching,
part-of-speech (POS) matching against a lexical-database capability, and the
single-pass filter engine combining them.

Python strings are embedded as `List Char` (the inputs are ASCII).  Python
exceptions become an `Except Err` result: `ValueError` is `Err.invalidQuery`
and the `RuntimeError`/missing-NLTK condition is `Err.capabilityUnavailable`.
The WordNet lexical database is modelled as an oracle
`Wordnet.hasSynset : word → posTag → Bool` answering whether
`wn.synsets(word, pos=tag)` is non-empty; availability of the capability is an
`Option Wordnet` (with `none` playing the role of `nltk is None`, i.e. the
optional dependency being absent or its data unfetchable).
-/

set_option autoImplicit false

namespace Bip39

/-- Embedded string: a list of characters. -/
abbrev Str := List Char

/-- The whitespace characters removed by Python `str.strip()` (ASCII subset). -/
def pyIsSpace (c : Char) : Bool :=
  c = ' ' || c = '\t' || c = '\n' || c = '\x0d' || c = '\x0b' || c = '\x0c'

/-- Python `str.strip()`: drop leading and trailing whitespace. -/
def strip (s : Str) : Str :=
  ((s.dropWhile pyIsSpace).reverse.dropWhile pyIsSpace).reverse

/-- Python `str.lower()` (ASCII). -/
def lower (s : Str) : Str := s.map Char.toLower

/-- Convenience injection of Lean string literals into `Str`. -/
def lit (s : String) : Str := s.data

/-- Python `int()` on a string of decimal digits. -/
def digitsToNat (ds : Str) : Nat :=
  ds.foldl (fun n c => n * 10 + (c.toNat - 48)) 0

/-- Python `str.split(sep)` for a one-character separator (never returns `[]`). -/
def splitOn (sep : Char) : Str → List Str
  | [] => [[]]
  | c :: rest =>
    match splitOn sep rest with
    | [] => [[]]
    | g :: gs => if c = sep then [] :: g :: gs else (c :: g) :: gs

/-- Error taxonomy: Python `ValueError` (query-syntax error) and the
`RuntimeError` raised when the NLTK capability is missing. -/
inductive Err where
  | invalidQuery (msg : String)
  | capabilityUnavailable (msg : String)
deriving DecidableEq, Repr

instance {ε α : Type} [DecidableEq ε] [DecidableEq α] : DecidableEq (Except ε α) := fun
  | .ok a, .ok b =>
    if h : a = b then .isTrue (by rw [h]) else .isFalse (by simp [h])
  | .error e, .error f =>
    if h : e = f then .isTrue (by rw [h]) else .isFalse (by simp [h])
  | .ok _, .error _ => .isFalse (by simp)
  | .error _, .ok _ => .isFalse (by simp)

/--
`parse_length_query` from `bip39_filter.py`: strips the input and parses
`""` (no constraint), `N` (exact), and `D*-D*` (range, at least one side
non-empty) into `(min_len, max_len, exact_len)`; everything else is a
`ValueError`.  The regex `(\d*)-(\d*)` full-match is realised by taking the
maximal leading digit run, requiring a dash, and requiring the remainder to
be all digits (the greedy match cannot backtrack into a successful shorter
one because a digit is never a dash).
-/
def matchRange (t : Str) : Option (Str × Str) :=
  match t.dropWhile Char.isDigit with
  | '-' :: hi => if hi.all Char.isDigit then some (t.takeWhile Char.isDigit, hi) else none
  | _ => none

/-- The tail of `parse_length_query` after the regex `(\d*)-(\d*)` matched:
`min_len` and `max_len` computed from the two groups, and the check that not
both are `None`. -/
def rangeResult (min_len max_len : Option Nat) :
    Except Err (Option Nat × Option Nat × Option Nat) :=
  if min_len = none ∧ max_len = none then
    .error (.invalidQuery "Invalid length range.")
  else .ok (min_len, max_len, none)

/-- The body of `parse_length_query` on the stripped input. -/
def parseLengthStripped (t : Str) :
    Except Err (Option Nat × Option Nat × Option Nat) :=
  if t = [] then .ok (none, none, none)
  else if t.all Char.isDigit then .ok (none, none, some (digitsToNat t))
  else
    match matchRange t with
    | some (lo, hi) =>
      rangeResult (if lo = [] then none else some (digitsToNat lo))
        (if hi = [] then none else some (digitsToNat hi))
    | none => .error (.invalidQuery "Invalid length. Use N or N-M or -M or N-.")

def parse_length_query (text : Str) :
    Except Err (Option Nat × Option Nat × Option Nat) :=
  parseLengthStripped (strip text)

/-- Python `dict` assignment `mapping[idx] = ch` on an insertion-ordered
association list: an existing key is overwritten in place, a new key is
appended. -/
def dictInsert (m : List (Nat × Char)) (k : Nat) (v : Char) : List (Nat × Char) :=
  if m.any (fun p => p.1 = k) then
    m.map (fun p => if p.1 = k then (k, v) else p)
  else m ++ [(k, v)]

/-- Full match of the segment regex `(\d+)=([a-zA-Z])`: a non-empty digit run,
an equals sign, and a single ASCII letter; yields the index and the lowercased
letter. -/
def segMatch (p : Str) : Option (Nat × Char) :=
  match p.reverse with
  | c :: '=' :: dsRev =>
    if !(dsRev.reverse).isEmpty && (dsRev.reverse).all Char.isDigit && c.isAlpha then
      some (digitsToNat dsRev.reverse, c.toLower)
    else none
  | _ => none

/-- The loop body of `parse_positions_query`: each comma-separated part is
stripped; empty parts are skipped; a part matching the segment regex is
inserted into the mapping (later duplicates overwrite); anything else raises
`ValueError`. -/
def positionsLoop : List Str → List (Nat × Char) → Except Err (List (Nat × Char))
  | [], mapping => .ok mapping
  | part :: rest, mapping =>
    if strip part = [] then positionsLoop rest mapping
    else
      match segMatch (strip part) with
      | some (idx, ch) => positionsLoop rest (dictInsert mapping idx ch)
      | none => .error (.invalidQuery "Invalid positions. Use like 1=a,3=e")

/-- `parse_positions_query` from `bip39_filter.py`. -/
def parse_positions_query (text : Str) : Except Err (List (Nat × Char)) :=
  if strip text = [] then .ok []
  else positionsLoop (splitOn ',' (strip text)) []

/-- `word_matches_fixed_positions` from `bip39_filter.py`: every
`(idx1, ch)` pair must satisfy `1 ≤ idx1 ≤ len(word)` and
`word[idx1 - 1] == ch`; the Python loop returns `False` at the first failing
pair, which is the short-circuit of `List.all`. -/
def word_matches_fixed_positions (word : Str) (fixed_positions : List (Nat × Char)) : Bool :=
  fixed_positions.all fun p =>
    !(p.1 = 0) && (p.1 ≤ word.length) && (word.get? (p.1 - 1) == some p.2)

/-- The lexical-database capability: `hasSynset w tag` answers whether
`wn.synsets(w, pos=tag)` is non-empty, for the WordNet tags
`'n'`, `'v'`, `'a'`, `'s'`. -/
structure Wordnet where
  hasSynset : Str → Char → Bool

/-- `ensure_wordnet` from `bip39_filter.py`: raises `RuntimeError` when the
optional NLTK dependency is absent (modelled, together with an unfetchable
data set, as `none`); otherwise yields the cached WordNet handle.  The
network download-and-retry is collapsed into the availability flag. -/
def ensure_wordnet (env : Option Wordnet) : Except Err Wordnet :=
  match env with
  | none => .error (.capabilityUnavailable
      "NLTK not installed. Install requirements to use --pos filtering.")
  | some wn => .ok wn

/-- The normalization table of `word_matches_pos`: a token is stripped and
lowercased, then `noun`/`n` contributes tag `n`, `verb`/`v` contributes `v`,
and `adjective`/`adj`/`a` contributes both `a` and `s` (adjective plus
satellite adjective); any other token is invalid (`none`). -/
def tokTags (t : Str) : Option (List Char) :=
  let tnorm := lower (strip t)
  if tnorm = lit "noun" ∨ tnorm = lit "n" then some ['n']
  else if tnorm = lit "verb" ∨ tnorm = lit "v" then some ['v']
  else if tnorm = lit "adjective" ∨ tnorm = lit "adj" ∨ tnorm = lit "a" then some ['a', 's']
  else none

/-- The token loop of `word_matches_pos` building the `desired` tag set
(here a list; only membership is ever used): raises `ValueError` at an
invalid token. -/
def desiredTags : List Str → Except Err (List Char)
  | [] => .ok []
  | t :: ts =>
    match tokTags t with
    | some tags => (tags ++ ·) <$> desiredTags ts
    | none => .error (.invalidQuery "POS must be noun, verb, or adjective")

/-- `word_matches_pos` from `bip39_filter.py`: with no requested types every
word matches; otherwise the WordNet capability is ensured first, the tokens
are normalized, and the word matches when some desired tag has a synset. -/
def word_matches_pos (env : Option Wordnet) (word : Str) (pos_types : List Str) :
    Except Err Bool :=
  if pos_types.isEmpty then .ok true
  else
    match ensure_wordnet env with
    | .error e => .error e
    | .ok wn =>
      match desiredTags pos_types with
      | .error e => .error e
      | .ok desired => .ok (desired.any fun pos => wn.hasSynset word pos)

/-- The guard `exact_len is not None and n != exact_len` of `filter_words`
(line 148). -/
def exactFails (exact_len : Option Nat) (n : Nat) : Bool :=
  match exact_len with
  | some e => n != e
  | none => false

/-- The guard `min_len is not None and n < min_len` of `filter_words`
(line 150). -/
def minFails (min_len : Option Nat) (n : Nat) : Bool :=
  match min_len with
  | some m => Nat.blt n m
  | none => false

/-- The guard `max_len is not None and n > max_len` of `filter_words`
(line 152). -/
def maxFails (max_len : Option Nat) (n : Nat) : Bool :=
  match max_len with
  | some m => Nat.blt m n
  | none => false

/-- `filter_words` from `bip39_filter.py`: one pass over the words, each
stripped and lowercased, skipped when empty or when it fails the exact /
min / max length tests, the fixed-position test, or (when POS types were
requested) the POS test; an exception from the POS path aborts the whole
pass. -/
def filter_words (env : Option Wordnet) (min_len max_len exact_len : Option Nat)
    (fixed_positions : List (Nat × Char)) (pos_types : List Str) :
    List Str → Except Err (List Str)
  | [] => .ok []
  | w0 :: ws =>
    if lower (strip w0) = [] then
      filter_words env min_len max_len exact_len fixed_positions pos_types ws
    else if exactFails exact_len (lower (strip w0)).length then
      filter_words env min_len max_len exact_len fixed_positions pos_types ws
    else if minFails min_len (lower (strip w0)).length then
      filter_words env min_len max_len exact_len fixed_positions pos_types ws
    else if maxFails max_len (lower (strip w0)).length then
      filter_words env min_len max_len exact_len fixed_positions pos_types ws
    else if !word_matches_fixed_positions (lower (strip w0)) fixed_positions then
      filter_words env min_len max_len exact_len fixed_positions pos_types ws
    else if pos_types.isEmpty then
      (filter_words env min_len max_len exact_len fixed_positions pos_types ws).map
        (lower (strip w0) :: ·)
    else
      match word_matches_pos env (lower (strip w0)) pos_types with
      | .error e => .error e
      | .ok false => filter_words env min_len max_len exact_len fixed_positions pos_types ws
      | .ok true =>
        (filter_words env min_len max_len exact_len fixed_positions pos_types ws).map
          (lower (strip w0) :: ·)

/-! ## Spec-side reference definitions used in the claim statements -/

/-- The character of `w` at 1-based index `idx1`, when it exists (no word has
a 0th 1-based character). -/
def charAt1 (w : Str) (idx1 : Nat) : Option Char :=
  if idx1 = 0 then none else w.get? (idx1 - 1)

/-- The non-POS part of the filter predicate, on an already-normalized word:
non-empty, passes the exact / min / max length tests, and matches every fixed
position. -/
def lengthPosOk (min_len max_len exact_len : Option Nat)
    (fixed_positions : List (Nat × Char)) (w : Str) : Bool :=
  !w.isEmpty &&
  !exactFails exact_len w.length &&
  !minFails min_len w.length &&
  !maxFails max_len w.length &&
  word_matches_fixed_positions w fixed_positions

/-- The word ORs over the requested POS categories: some requested token has
some of its (expanded) WordNet tags with a sense for the word. -/
def posMatches (wn : Wordnet) (pos_types : List Str) (w : Str) : Bool :=
  pos_types.any fun t => ((tokTags t).getD []).any fun tag => wn.hasSynset w tag

/-- The full filter predicate on an already-normalized word: the conjunction
of the length axis, the fixed-position axis, and (when POS categories were
requested) the POS axis. -/
def passesQuery (wn : Wordnet) (min_len max_len exact_len : Option Nat)
    (fixed_positions : List (Nat × Char)) (pos_types : List Str) (w : Str) : Bool :=
  lengthPosOk min_len max_len exact_len fixed_positions w &&
  (pos_types.isEmpty || posMatches wn pos_types w)

/-- A small concrete WordNet oracle used to instantiate witnesses: `abandon`
has noun senses, `abandon` and `abstract` have satellite-adjective senses. -/
def wnSample : Wordnet :=
  ⟨fun w tag => (w = lit "abandon" && (tag = 'n' || tag = 's')) ||
    (w = lit "abstract" && tag = 's')⟩

/-! ## Helper lemmas on the string primitives -/

theorem pyIsSpace_cases (c : Char) (h : pyIsSpace c = true) :
    c = ' ' ∨ c = '\t' ∨ c = '\n' ∨ c = '\x0d' ∨ c = '\x0b' ∨ c = '\x0c' := by
  unfold pyIsSpace at h
  simp only [Bool.or_eq_true, decide_eq_true_eq] at h
  tauto

theorem pyIsSpace_of_isDigit (c : Char) (h : c.isDigit = true) : pyIsSpace c = false := by
  cases hs : pyIsSpace c with
  | false => rfl
  | true =>
    rcases pyIsSpace_cases c hs with rfl | rfl | rfl | rfl | rfl | rfl <;>
      exact absurd h (by decide)

theorem pyIsSpace_of_isAlpha (c : Char) (h : c.isAlpha = true) : pyIsSpace c = false := by
  cases hs : pyIsSpace c with
  | false => rfl
  | true =>
    rcases pyIsSpace_cases c hs with rfl | rfl | rfl | rfl | rfl | rfl <;>
      exact absurd h (by decide)

theorem dropWhile_eq_self_of_false (p : Char → Bool) (s : Str)
    (h : ∀ c ∈ s, p c = false) : s.dropWhile p = s := by
  cases s with
  | nil => rfl
  | cons c cs =>
    rw [List.dropWhile_cons, h c (List.mem_cons_self c cs)]
    simp

theorem strip_eq_self (s : Str) (h : ∀ c ∈ s, pyIsSpace c = false) : strip s = s := by
  unfold strip
  rw [dropWhile_eq_self_of_false _ _ h,
    dropWhile_eq_self_of_false _ _ (fun c hc => h c (List.mem_reverse.mp hc)),
    List.reverse_reverse]

theorem digits_dropWhile (lo hi : Str) (hlo : ∀ c ∈ lo, Char.isDigit c = true) :
    (lo ++ '-' :: hi).dropWhile Char.isDigit = '-' :: hi := by
  induction lo with
  | nil =>
    rw [List.nil_append, List.dropWhile_cons, if_neg]
    intro hcon
    exact absurd hcon (by decide)
  | cons c cs ih =>
    rw [List.cons_append, List.dropWhile_cons, hlo c (by simp), if_pos rfl]
    exact ih fun x hx => hlo x (by simp [hx])

theorem digits_takeWhile (lo hi : Str) (hlo : ∀ c ∈ lo, Char.isDigit c = true) :
    (lo ++ '-' :: hi).takeWhile Char.isDigit = lo := by
  induction lo with
  | nil =>
    rw [List.nil_append, List.takeWhile_cons, if_neg]
    intro hcon
    exact absurd hcon (by decide)
  | cons c cs ih =>
    rw [List.cons_append, List.takeWhile_cons, hlo c (by simp), if_pos rfl]
    rw [ih fun x hx => hlo x (by simp [hx])]

theorem matchRange_eq (lo hi : Str) (hlo : ∀ c ∈ lo, Char.isDigit c = true)
    (hhi : hi.all Char.isDigit = true) :
    matchRange (lo ++ '-' :: hi) = some (lo, hi) := by
  unfold matchRange
  rw [digits_dropWhile lo hi hlo]
  simp [hhi, digits_takeWhile lo hi hlo]

end Bip39

namespace Bip39

example : parse_length_query (lit "5") = .ok (none, none, some 5) := by decide
example : parse_length_query (lit " 4-6 ") = .ok (some 4, some 6, none) := by decide
example : parse_length_query (lit "-6") = .ok (none, some 6, none) := by decide
example : parse_length_query (lit "7-") = .ok (some 7, none, none) := by decide
example : parse_length_query (lit "") = .ok (none, none, none) := by decide
example : parse_length_query (lit "-") = .error (.invalidQuery "Invalid length range.") := by decide
example : (parse_length_query (lit "abc")).isOk = false := by decide
example : (parse_length_query (lit "4-6-8")).isOk = false := by decide
example : parse_length_query (lit "0") = .ok (none, none, some 0) := by decide
example : parse_length_query (lit "6-4") = .ok (some 6, some 4, none) := by decide

example : parse_positions_query (lit "1=a,3=e,5=o") = .ok [(1, 'a'), (3, 'e'), (5, 'o')] := by decide
example : parse_positions_query (lit "1=A") = .ok [(1, 'a')] := by decide
example : parse_positions_query (lit "1=a,1=b") = .ok [(1, 'b')] := by decide
example : parse_positions_query (lit "1=a,,") = .ok [(1, 'a')] := by decide
example : (parse_positions_query (lit "x=y")).isOk = false := by decide
example : (parse_positions_query (lit "1=ab")).isOk = false := by decide
example : parse_positions_query (lit "0=a") = .ok [(0, 'a')] := by decide

example :
    filter_words (some wnSample) none none (some 7) [(1, 'a')] []
      [lit "abandon"] = .ok [lit "abandon"] := by decide
example :
    filter_words (some wnSample) none none (some 7) [(1, 'b')] []
      [lit "abandon"] = .ok [] := by decide
example :
    filter_words none (some 4) (some 6) none [] []
      [lit "zoo", lit "Apple", lit "banana"] = .ok [lit "apple", lit "banana"] := by
  decide
example :
    filter_words (some wnSample) none none none [] [lit "noun"]
      [lit "abandon", lit "zoo"] = .ok [lit "abandon"] := by decide

/-- C2: `parse_length_query` implements the spec grammar: an all-digits
string yields `exact = N` with min and max unset; a string of the form
`D*-D*` with at least one side non-empty yields min from the left side (or
none) and max from the right side (or none) with exact unset; the empty
string yields no constraint at all; and a lone `-`, a non-numeric string
such as `abc`, and `4-6-8` each fail with InvalidQuery. -/
theorem C2_length_grammar :
    (∀ ds : Str, ds ≠ [] → ds.all Char.isDigit = true →
      parse_length_query ds = .ok (none, none, some (digitsToNat ds))) ∧
    (∀ lo hi : Str, lo.all Char.isDigit = true → hi.all Char.isDigit = true →
      lo ≠ [] ∨ hi ≠ [] →
      parse_length_query (lo ++ '-' :: hi) =
        .ok ((if lo = [] then none else some (digitsToNat lo)),
          (if hi = [] then none else some (digitsToNat hi)), none)) ∧
    parse_length_query (lit "") = .ok (none, none, none) ∧
    (∃ m, parse_length_query (lit "-") = .error (.invalidQuery m)) ∧
    (∃ m, parse_length_query (lit "abc") = .error (.invalidQuery m)) ∧
    (∃ m, parse_length_query (lit "4-6-8") = .error (.invalidQuery m)) := by
  refine ⟨?_, ?_, by decide, ⟨"Invalid length range.", by decide⟩,
    ⟨"Invalid length. Use N or N-M or -M or N-.", by decide⟩,
    ⟨"Invalid length. Use N or N-M or -M or N-.", by decide⟩⟩
  · intro ds hne hall
    have hmem := List.all_eq_true.mp hall
    unfold parse_length_query
    rw [strip_eq_self ds fun c hc => pyIsSpace_of_isDigit c (hmem c hc)]
    unfold parseLengthStripped
    rw [if_neg hne, if_pos hall]
  · intro lo hi hlo hhi hne
    have hlomem := List.all_eq_true.mp hlo
    have hhimem := List.all_eq_true.mp hhi
    have hspace : ∀ c ∈ lo ++ '-' :: hi, pyIsSpace c = false := by
      intro c hc
      rcases List.mem_append.mp hc with h | h
      · exact pyIsSpace_of_isDigit c (hlomem c h)
      · rcases List.mem_cons.mp h with rfl | h
        · decide
        · exact pyIsSpace_of_isDigit c (hhimem c h)
    have hnotall : ¬ ((lo ++ '-' :: hi).all Char.isDigit = true) := by
      intro hcon
      exact absurd (List.all_eq_true.mp hcon '-' (by simp)) (by decide)
    unfold parse_length_query
    rw [strip_eq_self _ hspace]
    unfold parseLengthStripped
    rw [if_neg (by simp), if_neg hnotall, matchRange_eq lo hi hlomem hhi]
    unfold rangeResult
    rcases hne with h | h
    · simp [h]
    · simp [h]

/-- C2 witness: the theorem applied at the all-digits input `12` and the
range input `4-6`. -/
theorem C2_length_grammar_witness :
    parse_length_query ['1', '2'] = .ok (none, none, some 12) ∧
    parse_length_query (['4'] ++ '-' :: ['6']) =
      .ok ((if (['4'] : Str) = [] then none else some (digitsToNat ['4'])),
        (if (['6'] : Str) = [] then none else some (digitsToNat ['6'])), none) :=
  ⟨C2_length_grammar.1 ['1', '2'] (by decide) (by decide),
    C2_length_grammar.2.1 ['4'] ['6'] (by decide) (by decide) (Or.inl (by decide))⟩

/-- C3 counterexample: the input `0` parses to `exact = 0`, violating the
claimed invariant `N ≥ 1`, and the input `6-4` parses to `min = 6, max = 4`,
violating the claimed invariant `min ≤ max`. -/
theorem C3_counterexample :
    parse_length_query (lit "0") = .ok (none, none, some 0) ∧
    parse_length_query (lit "6-4") = .ok (some 6, some 4, none) ∧ ¬ (6 ≤ 4) := by
  refine ⟨by decide, by decide, by decide⟩

theorem rangeResult_ok (a b mn mx ex : Option Nat)
    (h : rangeResult a b = .ok (mn, mx, ex)) :
    ex = none ∧ (mn ≠ none ∨ mx ≠ none) := by
  unfold rangeResult at h
  split at h
  · exact absurd h (by simp)
  next hcond =>
    obtain ⟨rfl, rfl, rfl⟩ := by simpa using h
    exact ⟨rfl, not_and_or.mp hcond⟩

/-- C3 (amended): every constraint returned by `parse_length_query` is
exactly one of {no constraint at all, exact-only, range with at least one
bound}; exact and min/max are never both populated.  (The further claimed
invariants `exact ≥ 1` and `min ≤ max` do not hold: `0` yields `exact = 0`
and `6-4` yields `min = 6 > 4 = max`.) -/
theorem C3_mutual_exclusion (text : Str) (mn mx ex : Option Nat)
    (h : parse_length_query text = .ok (mn, mx, ex)) :
    (mn = none ∧ mx = none ∧ ex = none) ∨
    (mn = none ∧ mx = none ∧ ∃ n, ex = some n) ∨
    (ex = none ∧ (mn ≠ none ∨ mx ≠ none)) := by
  unfold parse_length_query parseLengthStripped at h
  split at h
  · obtain ⟨rfl, rfl, rfl⟩ := by simpa using h
    exact Or.inl ⟨rfl, rfl, rfl⟩
  split at h
  · obtain ⟨rfl, rfl, rfl⟩ := by simpa using h
    exact Or.inr (Or.inl ⟨rfl, rfl, _, rfl⟩)
  split at h
  next lo hi heq => exact Or.inr (Or.inr (rangeResult_ok _ _ mn mx ex h))
  next heq => exact absurd h (by simp)

theorem splitOn_no_sep (sep : Char) (s : Str) (h : ∀ c ∈ s, ¬ c = sep) :
    splitOn sep s = [s] := by
  induction s with
  | nil => rfl
  | cons c cs ih =>
    unfold splitOn
    rw [ih fun x hx => h x (List.mem_cons_of_mem c hx)]
    exact if_neg (h c (List.mem_cons_self c cs))

theorem segMatch_valid (ds : Str) (c : Char) (hne : ds ≠ [])
    (hds : ds.all Char.isDigit = true) (hc : c.isAlpha = true) :
    segMatch (ds ++ ['=', c]) = some (digitsToNat ds, c.toLower) := by
  unfold segMatch
  have hrev : (ds ++ ['=', c]).reverse = c :: '=' :: ds.reverse := by simp
  rw [hrev]
  simp only [List.reverse_reverse]
  simp [hds, hc, hne]

/-- C4 helper: a single valid segment `digits=letter` parses to the one-entry
map carrying the lowercased letter. -/
theorem parse_positions_single (ds : Str) (c : Char) (hne : ds ≠ [])
    (hds : ds.all Char.isDigit = true) (hc : c.isAlpha = true) :
    parse_positions_query (ds ++ ['=', c]) = .ok [(digitsToNat ds, c.toLower)] := by
  have hmem := List.all_eq_true.mp hds
  have hspace : ∀ x ∈ ds ++ ['=', c], pyIsSpace x = false := by
    intro x hx
    rcases List.mem_append.mp hx with h | h
    · exact pyIsSpace_of_isDigit x (hmem x h)
    · rcases List.mem_cons.mp h with rfl | h
      · decide
      · rcases List.mem_cons.mp h with rfl | h
        · exact pyIsSpace_of_isAlpha x hc
        · simp at h
  have hnocomma : ∀ x ∈ ds ++ ['=', c], ¬ x = ',' := by
    intro x hx hcon
    subst hcon
    rcases List.mem_append.mp hx with h | h
    · exact absurd (hmem _ h) (by decide)
    · rcases List.mem_cons.mp h with heq | h
      · exact absurd heq (by decide)
      · rcases List.mem_cons.mp h with heq | h
        · rw [← heq] at hc
          exact absurd hc (by decide)
        · simp at h
  have hlistne : ¬ (ds ++ ['=', c]) = [] := by simp
  unfold parse_positions_query
  rw [strip_eq_self _ hspace, if_neg hlistne, splitOn_no_sep ',' _ hnocomma]
  unfold positionsLoop
  rw [strip_eq_self _ hspace, if_neg hlistne, segMatch_valid ds c hne hds hc]
  simp [positionsLoop, dictInsert]

/-- C4: `parse_positions_query` maps a comma-separated string of
`digits=singleLetter` tokens to a map from index to lowercased letter: the
empty string yields an empty map, empty segments (e.g. from trailing commas)
are silently skipped, later duplicate indices overwrite earlier ones (last
wins, so `1=a,1=b` yields `{1: b}`), the letter is case-folded to lowercase,
and any segment not matching `digits=singleLetter` (e.g. `x=y` or `1=ab`)
fails with InvalidQuery and discards all partial results. -/
theorem C4_positions_grammar :
    parse_positions_query (lit "") = .ok [] ∧
    (∀ (ds : Str) (c : Char), ds ≠ [] → ds.all Char.isDigit = true →
      c.isAlpha = true →
      parse_positions_query (ds ++ ['=', c]) = .ok [(digitsToNat ds, c.toLower)]) ∧
    parse_positions_query (lit "1=a,3=e,5=o") = .ok [(1, 'a'), (3, 'e'), (5, 'o')] ∧
    parse_positions_query (lit "1=A") = .ok [(1, 'a')] ∧
    parse_positions_query (lit "1=a,1=b") = .ok [(1, 'b')] ∧
    parse_positions_query (lit "1=a,,2=b,") = .ok [(1, 'a'), (2, 'b')] ∧
    parse_positions_query (lit "x=y") =
      .error (.invalidQuery "Invalid positions. Use like 1=a,3=e") ∧
    parse_positions_query (lit "1=ab") =
      .error (.invalidQuery "Invalid positions. Use like 1=a,3=e") ∧
    parse_positions_query (lit "1=a,x=y") =
      .error (.invalidQuery "Invalid positions. Use like 1=a,3=e") :=
  ⟨by decide, parse_positions_single, by decide, by decide, by decide, by decide,
    by decide, by decide, by decide⟩

/-- C4 witness: the general segment conjunct applied at `4=Z`. -/
theorem C4_positions_grammar_witness :
    parse_positions_query (['4'] ++ ['=', 'Z']) =
      .ok [(digitsToNat ['4'], 'Z'.toLower)] :=
  C4_positions_grammar.2.1 ['4'] 'Z' (by decide) (by decide) (by decide)

/-- C5: a normalized word matches a position constraint set iff every
(index, letter) pair has the word long enough and the character at that
1-based index equal to the required letter; `0=a` parses fine but rejects
every word at match time, since no word has a 0th 1-based character. -/
theorem C5_position_matching :
    (∀ (w : Str) (fp : List (Nat × Char)),
      word_matches_fixed_positions w fp = true ↔
        ∀ p ∈ fp, p.1 ≤ w.length ∧ charAt1 w p.1 = some p.2) ∧
    parse_positions_query (lit "0=a") = .ok [(0, 'a')] ∧
    (∀ w : Str, word_matches_fixed_positions w [(0, 'a')] = false) := by
  refine ⟨?_, by decide, ?_⟩
  · intro w fp
    simp only [word_matches_fixed_positions, List.all_eq_true, Bool.and_eq_true,
      Bool.not_eq_true', decide_eq_false_iff_not, decide_eq_true_eq, beq_iff_eq]
    constructor
    · intro h p hp
      obtain ⟨⟨h0, hle⟩, hget⟩ := h p hp
      refine ⟨hle, ?_⟩
      unfold charAt1
      rw [if_neg h0]
      exact hget
    · intro h p hp
      obtain ⟨hle, hat⟩ := h p hp
      have h0 : ¬ p.1 = 0 := by
        intro e
        rw [e] at hat
        simp [charAt1] at hat
      unfold charAt1 at hat
      rw [if_neg h0] at hat
      exact ⟨⟨h0, hle⟩, hat⟩
  · intro w
    simp [word_matches_fixed_positions]

/-- C5 witness: the characterization applied to `abandon` with positions
`{1: a, 5: d}`. -/
theorem C5_position_matching_witness :
    word_matches_fixed_positions (lit "abandon") [(1, 'a'), (5, 'd')] = true :=
  (C5_position_matching.1 (lit "abandon") [(1, 'a'), (5, 'd')]).mpr (by decide)

theorem desiredTags_valid (pt : List Str) (h : ∀ t ∈ pt, tokTags t ≠ none)
    (f : Char → Bool) :
    ∃ d, desiredTags pt = .ok d ∧
      d.any f = pt.any fun t => ((tokTags t).getD []).any f := by
  induction pt with
  | nil => exact ⟨[], rfl, rfl⟩
  | cons t ts ih =>
    cases htags : tokTags t with
    | none => exact absurd htags (h t (List.mem_cons_self t ts))
    | some tags =>
      obtain ⟨d, hd, hany⟩ := ih fun x hx => h x (List.mem_cons_of_mem t hx)
      refine ⟨tags ++ d, ?_, ?_⟩
      · unfold desiredTags
        rw [htags, hd]
        rfl
      · simp [htags, List.any_append, hany]

theorem desiredTags_invalid (pt : List Str) (h : ∃ t ∈ pt, tokTags t = none) :
    desiredTags pt = .error (.invalidQuery "POS must be noun, verb, or adjective") := by
  induction pt with
  | nil => simp at h
  | cons t ts ih =>
    obtain ⟨x, hx, hnone⟩ := h
    rcases List.mem_cons.mp hx with rfl | hmem
    · unfold desiredTags
      rw [hnone]
    · cases htags : tokTags t with
      | none =>
        unfold desiredTags
        rw [htags]
      | some tags =>
        unfold desiredTags
        rw [htags, ih ⟨x, hmem, hnone⟩]
        rfl

theorem word_matches_pos_valid (wn : Wordnet) (w : Str) (pt : List Str)
    (hne : pt ≠ []) (h : ∀ t ∈ pt, tokTags t ≠ none) :
    word_matches_pos (some wn) w pt = .ok (posMatches wn pt w) := by
  obtain ⟨d, hd, hany⟩ := desiredTags_valid pt h fun tag => wn.hasSynset w tag
  unfold word_matches_pos
  rw [if_neg (by simp [hne]), hd]
  simp [ensure_wordnet, posMatches, hany]

theorem word_matches_pos_invalid (wn : Wordnet) (w : Str) (pt : List Str)
    (h : ∃ t ∈ pt, tokTags t = none) :
    word_matches_pos (some wn) w pt =
      .error (.invalidQuery "POS must be noun, verb, or adjective") := by
  have hne : pt ≠ [] := by
    rintro rfl
    simp at h
  unfold word_matches_pos
  rw [if_neg (by simp [hne]), desiredTags_invalid pt h]
  rfl

theorem word_matches_pos_unavailable (w : Str) (pt : List Str) (hne : pt ≠ []) :
    word_matches_pos none w pt = .error (.capabilityUnavailable
      "NLTK not installed. Install requirements to use --pos filtering.") := by
  unfold word_matches_pos
  rw [if_neg (by simp [hne])]
  rfl

/-- C6: POS matching normalizes each requested token (noun/n, verb/v,
adjective/adj/a, with trimming and case-insensitivity), fails with
InvalidQuery naming the allowed set on any other token, expands adjective to
include satellite-adjective senses (tags `a` and `s`), and declares a word a
match iff the lexical database reports at least one sense under any of the
expanded requested categories (logical OR, embodied in `posMatches`). -/
theorem C6_pos_matching (wn : Wordnet) (w : Str) (pt : List Str) :
    (tokTags (lit "Noun") = some ['n'] ∧ tokTags (lit " n ") = some ['n'] ∧
      tokTags (lit " VERB ") = some ['v'] ∧ tokTags (lit "v") = some ['v'] ∧
      tokTags (lit "Adjective") = some ['a', 's'] ∧
      tokTags (lit "adj") = some ['a', 's'] ∧ tokTags (lit "a") = some ['a', 's'] ∧
      tokTags (lit "adverb") = none) ∧
    ((∃ t ∈ pt, tokTags t = none) →
      word_matches_pos (some wn) w pt =
        .error (.invalidQuery "POS must be noun, verb, or adjective")) ∧
    (pt ≠ [] → (∀ t ∈ pt, tokTags t ≠ none) →
      word_matches_pos (some wn) w pt = .ok (posMatches wn pt w)) :=
  ⟨by decide, word_matches_pos_invalid wn w pt, word_matches_pos_valid wn w pt⟩

/-- C6 witness: the valid-token conjunct applied to `abandon` with requested
categories noun and verb against the sample oracle. -/
theorem C6_pos_matching_witness :
    word_matches_pos (some wnSample) (lit "abandon") [lit "noun", lit "verb"] =
      .ok (posMatches wnSample [lit "noun", lit "verb"] (lit "abandon")) :=
  (C6_pos_matching wnSample (lit "abandon") [lit "noun", lit "verb"]).2.2
    (by decide) (by decide)

theorem blt_eq_false_iff (a b : Nat) : Nat.blt a b = false ↔ b ≤ a := by
  rw [← Bool.not_eq_true, Nat.blt_eq]
  exact Nat.not_lt

theorem lengthPosOk_true_iff (mn mx ex : Option Nat) (fp : List (Nat × Char)) (w : Str) :
    lengthPosOk mn mx ex fp w = true ↔
      ¬(w = []) ∧
      exactFails ex w.length = false ∧
      minFails mn w.length = false ∧
      maxFails mx w.length = false ∧
      word_matches_fixed_positions w fp = true := by
  simp [lengthPosOk, List.isEmpty_iff, and_assoc]

theorem filter_words_skip (env : Option Wordnet) (mn mx ex : Option Nat)
    (fp : List (Nat × Char)) (pt : List Str) (w0 : Str) (ws : List Str)
    (h : lengthPosOk mn mx ex fp (lower (strip w0)) = false) :
    filter_words env mn mx ex fp pt (w0 :: ws) = filter_words env mn mx ex fp pt ws := by
  simp only [filter_words]
  by_cases h1 : lower (strip w0) = []
  · rw [if_pos h1]
  rw [if_neg h1]
  by_cases h2 : exactFails ex (lower (strip w0)).length = true
  · rw [if_pos h2]
  rw [if_neg h2]
  by_cases h3 : minFails mn (lower (strip w0)).length = true
  · rw [if_pos h3]
  rw [if_neg h3]
  by_cases h4 : maxFails mx (lower (strip w0)).length = true
  · rw [if_pos h4]
  rw [if_neg h4]
  by_cases h5 : (!word_matches_fixed_positions (lower (strip w0)) fp) = true
  · rw [if_pos h5]
  exfalso
  have hok : lengthPosOk mn mx ex fp (lower (strip w0)) = true :=
    (lengthPosOk_true_iff mn mx ex fp _).mpr
      ⟨h1, by simpa using h2, by simpa using h3, by simpa using h4, by simpa using h5⟩
  rw [hok] at h
  exact Bool.noConfusion h

theorem filter_words_cons_pass (env : Option Wordnet) (mn mx ex : Option Nat)
    (fp : List (Nat × Char)) (pt : List Str) (w0 : Str) (ws : List Str)
    (h : lengthPosOk mn mx ex fp (lower (strip w0)) = true) :
    filter_words env mn mx ex fp pt (w0 :: ws) =
      if pt.isEmpty then
        (filter_words env mn mx ex fp pt ws).map (lower (strip w0) :: ·)
      else
        match word_matches_pos env (lower (strip w0)) pt with
        | .error e => .error e
        | .ok false => filter_words env mn mx ex fp pt ws
        | .ok true =>
          (filter_words env mn mx ex fp pt ws).map (lower (strip w0) :: ·) := by
  obtain ⟨h1, h2, h3, h4, h5⟩ := (lengthPosOk_true_iff mn mx ex fp _).mp h
  simp only [filter_words]
  rw [if_neg h1, if_neg (by simp [h2]), if_neg (by simp [h3]), if_neg (by simp [h4]),
    if_neg (by simp [h5])]

/-- The single-pass characterization of the filter engine, parameterized by a
pure outcome `g` for the POS check. -/
theorem filter_words_eq_filter (env : Option Wordnet) (mn mx ex : Option Nat)
    (fp : List (Nat × Char)) (pt : List Str) (g : Str → Bool)
    (hpos : ∀ w : Str, pt ≠ [] → word_matches_pos env w pt = .ok (g w)) :
    ∀ words : List Str,
      filter_words env mn mx ex fp pt words =
        .ok ((words.map fun w => lower (strip w)).filter
          fun w => lengthPosOk mn mx ex fp w && (pt.isEmpty || g w)) := by
  intro words
  induction words with
  | nil => rfl
  | cons w0 ws ih =>
    rw [List.map_cons, List.filter_cons]
    by_cases hpre : lengthPosOk mn mx ex fp (lower (strip w0)) = true
    · rw [filter_words_cons_pass env mn mx ex fp pt w0 ws hpre]
      by_cases hpt : pt.isEmpty = true
      · rw [if_pos hpt, ih, if_pos (by simp [hpre, hpt])]
        rfl
      · have hne : pt ≠ [] := by simpa [List.isEmpty_iff] using hpt
        rw [if_neg hpt, hpos (lower (strip w0)) hne]
        by_cases hg : g (lower (strip w0)) = true
        · rw [hg, ih, if_pos (by simp [hpre, hg])]
          rfl
        · have hg' : g (lower (strip w0)) = false := by simpa using hg
          have hpt' : pt.isEmpty = false := by simpa using hpt
          rw [hg', ih, if_neg (by simp [hpre, hg', hpt'])]
    · have hpre' : lengthPosOk mn mx ex fp (lower (strip w0)) = false := by
        simpa using hpre
      rw [filter_words_skip env mn mx ex fp pt w0 ws hpre', ih,
        if_neg (by simp [hpre'])]

theorem passesQuery_true_iff (wn : Wordnet) (mn mx ex : Option Nat)
    (fp : List (Nat × Char)) (pt : List Str) (w : Str) :
    passesQuery wn mn mx ex fp pt w = true ↔
      ¬ w = [] ∧ (∀ e, ex = some e → w.length = e) ∧
      (∀ m, mn = some m → m ≤ w.length) ∧ (∀ m, mx = some m → w.length ≤ m) ∧
      word_matches_fixed_positions w fp = true ∧
      (pt = [] ∨ posMatches wn pt w = true) := by
  cases ex <;> cases mn <;> cases mx <;>
    simp [passesQuery, lengthPosOk, exactFails, minFails, maxFails, List.isEmpty_iff,
      Nat.blt_eq, blt_eq_false_iff, bne_eq_false_iff_eq, Nat.not_lt, and_assoc]

/-- C1: for every input word sequence and every query whose POS tokens are
valid, `filter_words` returns exactly those words that, after lowercasing
and trimming, are non-empty and satisfy every active constraint —
exact/min/max length, every fixed position, and (only when POS categories
were requested) the POS disjunction — logical AND across the three axes,
preserving the input order with no re-sorting; with no constraints at all
the predicate degenerates to non-emptiness, so every normalized input word
is returned in original order. -/
theorem C1_filter_characterization (wn : Wordnet) (words : List Str)
    (mn mx ex : Option Nat) (fp : List (Nat × Char)) (pt : List Str)
    (hv : ∀ t ∈ pt, tokTags t ≠ none) :
    filter_words (some wn) mn mx ex fp pt words =
      .ok ((words.map fun w => lower (strip w)).filter
        fun w => passesQuery wn mn mx ex fp pt w) ∧
    (∀ w : Str, passesQuery wn mn mx ex fp pt w = true ↔
      ¬ w = [] ∧ (∀ e, ex = some e → w.length = e) ∧
      (∀ m, mn = some m → m ≤ w.length) ∧ (∀ m, mx = some m → w.length ≤ m) ∧
      word_matches_fixed_positions w fp = true ∧
      (pt = [] ∨ posMatches wn pt w = true)) :=
  ⟨filter_words_eq_filter (some wn) mn mx ex fp pt (fun w => posMatches wn pt w)
      (fun w hne => word_matches_pos_valid wn w pt hne hv) words,
    fun w => passesQuery_true_iff wn mn mx ex fp pt w⟩

/-- C1 witness: the characterization applied to a concrete word list and
query (exact length 7, first letter `a`, POS noun). -/
theorem C1_filter_characterization_witness :
    filter_words (some wnSample) none none (some 7) [(1, 'a')] [lit "noun"]
        [lit "Abandon", lit " ability ", lit "zoo"] =
      .ok (([lit "Abandon", lit " ability ", lit "zoo"].map
          fun w => lower (strip w)).filter
        fun w => passesQuery wnSample none none (some 7) [(1, 'a')] [lit "noun"] w) :=
  (C1_filter_characterization wnSample [lit "Abandon", lit " ability ", lit "zoo"]
    none none (some 7) [(1, 'a')] [lit "noun"] (by decide)).1

/-- C7 counterexample: the capability is unavailable (`none`) and a POS
filter (`noun`) is requested, yet `filter_words` does not raise
CapabilityUnavailable — it returns `ok []`, because no word survives the
length check (exact 3 against the 7-letter `abandon`) and the capability is
only consulted per surviving word. -/
theorem C7_counterexample :
    filter_words none none none (some 3) [] [lit "noun"] [lit "abandon"] =
      .ok [] := by decide

/-- C7 (amended): when the capability is unavailable and a POS filter is
requested, the filter pass raises CapabilityUnavailable — an error kind
distinct from InvalidQuery — as soon as any input word survives the
normalization, length and position checks; the error result carries no
partial match list, no silent fallback to match-all occurs.  (When no word
survives those checks the pass instead returns the empty list without
consulting the capability.) -/
theorem C7_capability_unavailable (mn mx ex : Option Nat) (fp : List (Nat × Char))
    (pt : List Str) (words : List Str) (hpt : pt ≠ [])
    (hsurv : ∃ w0 ∈ words, lengthPosOk mn mx ex fp (lower (strip w0)) = true) :
    filter_words none mn mx ex fp pt words =
      .error (.capabilityUnavailable
        "NLTK not installed. Install requirements to use --pos filtering.") := by
  induction words with
  | nil => simp at hsurv
  | cons w0 ws ih =>
    by_cases hpre : lengthPosOk mn mx ex fp (lower (strip w0)) = true
    · rw [filter_words_cons_pass none mn mx ex fp pt w0 ws hpre,
        if_neg (by simp [List.isEmpty_iff, hpt]),
        word_matches_pos_unavailable _ pt hpt]
    · obtain ⟨x, hx, hxt⟩ := hsurv
      rcases List.mem_cons.mp hx with rfl | hmem
      · exact absurd hxt hpre
      · rw [filter_words_skip none mn mx ex fp pt w0 ws (by simpa using hpre)]
        exact ih ⟨x, hmem, hxt⟩

/-- C7 witness: the amended theorem applied to the word `abandon` with an
unconstrained length/position query and POS `noun`, capability absent. -/
theorem C7_capability_unavailable_witness :
    filter_words none none none none [] [lit "noun"] [lit "abandon"] =
      .error (.capabilityUnavailable
        "NLTK not installed. Install requirements to use --pos filtering.") :=
  C7_capability_unavailable none none none [] [lit "noun"] [lit "abandon"]
    (by decide) ⟨lit "abandon", by decide, by decide⟩

/-- C8: the filter pass is deterministic — applied to equal inputs it
produces equal result lists, so running the same parsed query twice against
the same word source yields identical, order-stable output. -/
theorem C8_deterministic (env : Option Wordnet) (mn mx ex : Option Nat)
    (fp : List (Nat × Char)) (pt : List Str) (words words' : List Str)
    (h : words = words') :
    filter_words env mn mx ex fp pt words = filter_words env mn mx ex fp pt words' := by
  rw [h]

/-- C8 witness: determinism instantiated at a concrete run. -/
theorem C8_deterministic_witness :
    filter_words none none none none [] [] [lit "abandon"] =
      filter_words none none none none [] [] [lit "abandon"] :=
  C8_deterministic none none none none [] [] [lit "abandon"] [lit "abandon"] rfl

/-- C9: with no POS categories requested, the filter never consults the
lexical capability — the result is identical under every capability
environment, including an absent one, and is always a success, so
length/position-only queries work with the optional dependency missing. -/
theorem C9_no_pos_no_capability (env1 env2 : Option Wordnet) (mn mx ex : Option Nat)
    (fp : List (Nat × Char)) (words : List Str) :
    filter_words env1 mn mx ex fp [] words = filter_words env2 mn mx ex fp [] words ∧
    ∃ hits, filter_words env1 mn mx ex fp [] words = .ok hits := by
  have h1 := filter_words_eq_filter env1 mn mx ex fp [] (fun _ => true)
    (fun w hne => absurd rfl hne) words
  have h2 := filter_words_eq_filter env2 mn mx ex fp [] (fun _ => true)
    (fun w hne => absurd rfl hne) words
  exact ⟨h1.trans h2.symm, _, h1⟩

/-- C10: the capability-availability check runs only per candidate word that
already passed the length and position checks: with POS categories requested
and the capability absent, if no input word survives those earlier checks,
`filter_words` returns the empty list normally instead of raising
CapabilityUnavailable. -/
theorem C10_no_survivor_ok (mn mx ex : Option Nat) (fp : List (Nat × Char))
    (pt : List Str) (words : List Str) (_hpt : pt ≠ [])
    (h : ∀ w0 ∈ words, lengthPosOk mn mx ex fp (lower (strip w0)) = false) :
    filter_words none mn mx ex fp pt words = .ok [] := by
  induction words with
  | nil => rfl
  | cons w0 ws ih =>
    rw [filter_words_skip none mn mx ex fp pt w0 ws (h w0 (List.mem_cons_self w0 ws))]
    exact ih fun x hx => h x (List.mem_cons_of_mem w0 hx)

/-- C10 witness: capability absent, POS `verb` requested, but neither `zoo`
nor `abandon` has exact length 4, so the pass returns `ok []`. -/
theorem C10_no_survivor_ok_witness :
    filter_words none none none (some 4) [] [lit "verb"] [lit "zoo", lit "abandon"] =
      .ok [] :=
  C10_no_survivor_ok none none (some 4) [] [lit "verb"] [lit "zoo", lit "abandon"]
    (by decide) (by decide)

/-- C3 witness: the amended theorem applied to the parse of `4-6`. -/
theorem C3_mutual_exclusion_witness :
    ((some 4 : Option Nat) = none ∧ (some 6 : Option Nat) = none ∧
      (none : Option Nat) = none) ∨
    ((some 4 : Option Nat) = none ∧ (some 6 : Option Nat) = none ∧
      ∃ n, (none : Option Nat) = some n) ∨
    ((none : Option Nat) = none ∧
      ((some 4 : Option Nat) ≠ none ∨ (some 6 : Option Nat) ≠ none)) :=
  C3_mutual_exclusion (lit "4-6") (some 4) (some 6) none (by decide)

end Bip39
